import Mathlib

/-!
Verification of the vendor-leads ingestion pipeline.

This file gives a shallow embedding of the lead-ingestion and store-writer
code of the repository (the HTTP handler and its helpers in the lambda
sources, the vendor response factory in the utils, the lead-id resolver,
the vendors-config loader, and the DynamoDB batch writer) and proves the
behavioural properties claimed for them.

JavaScript values flowing through the code are modelled by an inductive
`Json` type; JS truthiness, property access, string coercion,
`JSON.parse` / `JSON.stringify` and `decodeURIComponent` are modelled as
executable Lean functions.  External effects (SQS sends, EventBridge
puts, DynamoDB batch writes, the SSM parameter fetch, `Date.now()` and
`Math.random()`) are modelled by explicit oracle parameters; the
functions return the trace of the calls they issue so that dispatch and
retry behaviour can be stated as theorems.
-/

set_option linter.unusedVariables false

/-- A JavaScript/JSON value.  `null` also stands for JS `null`; the
absent/`undefined` case is represented by `Option Json` where needed. -/
inductive Json where
  | null : Json
  | bool (b : Bool) : Json
  | num (n : Int) : Json
  | str (s : String) : Json
  | arr (elems : List Json) : Json
  | obj (fields : List (String × Json)) : Json

instance : Inhabited Json := ⟨Json.null⟩

namespace Json

/-- JS truthiness of a value: `null`, `false`, `0` and `""` are falsy,
everything else (including `[]` and `\x7b\x7d`) is truthy. -/
def truthy : Json → Bool
  | .null => false
  | .bool b => b
  | .num n => n != 0
  | .str s => s != ""
  | .arr _ => true
  | .obj _ => true

/-- JS truthiness of a possibly-absent value (`undefined` is falsy). -/
def otruthy : Option Json → Bool
  | some v => v.truthy
  | none => false

/-- JS property access `v[k]` as used by the sources: field lookup on an
object, canonical-index lookup on an array, `undefined` (= `none`)
otherwise. -/
def jLookup : Json → String → Option Json
  | .obj fields, k => (fields.find? (fun p => p.1 = k)).map (fun p => p.2)
  | .arr elems, k =>
    match k.toNat? with
    | some n => if toString n = k then elems.get? n else none
    | none => none
  | _, _ => none

/-- `typeof v === 'object'` for a non-`undefined` value (arrays and
`null` are both `'object'` in JS). -/
def typeofObject : Json → Bool
  | .obj _ => true
  | .arr _ => true
  | .null => true
  | _ => false

/-- `v === null`. -/
def isNull : Json → Bool
  | .null => true
  | _ => false

end Json

/-- JS `||` on possibly-absent values: first truthy operand wins. -/
def jsOrJson (v : Option Json) (dflt : Json) : Json :=
  match v with
  | some x => if x.truthy then x else dflt
  | none => dflt

mutual

/-- JS string-template coercion of a value, `String(v)` (arrays join
their coerced elements with commas, `null`/`undefined` elements joining
as empty strings; plain objects coerce to `[object Object]`). -/
def jsToString : Json → String
  | .null => "null"
  | .bool b => cond b "true" "false"
  | .num n => toString n
  | .str s => s
  | .arr elems => jsToStringElems elems
  | .obj _ => "[object Object]"

def jsToStringElem : Json → String
  | .null => ""
  | .bool b => cond b "true" "false"
  | .num n => toString n
  | .str s => s
  | .arr elems => jsToStringElems elems
  | .obj _ => "[object Object]"

def jsToStringElems : List Json → String
  | [] => ""
  | [v] => jsToStringElem v
  | v :: rest => jsToStringElem v ++ "," ++ jsToStringElems rest

end

/-- Escape one character for `JSON.stringify` output. -/
def escapeJsonChar (c : Char) : String :=
  if c = '"' then "\\\""
  else if c = '\\' then "\\\\"
  else if c = '\n' then "\\n"
  else if c = '\t' then "\\t"
  else if c = '\r' then "\\r"
  else String.mk [c]

/-- Escape a string for `JSON.stringify` output. -/
def escapeJsonString (s : String) : String :=
  String.join (s.data.map escapeJsonChar)

mutual

/-- `JSON.stringify` (compact form, as called without a spacer by the
sources when building message bodies and response bodies). -/
def Json.stringify : Json → String
  | .null => "null"
  | .bool b => cond b "true" "false"
  | .num n => toString n
  | .str s => "\"" ++ escapeJsonString s ++ "\""
  | .arr elems => "[" ++ Json.stringifyElems elems ++ "]"
  | .obj fields => "\x7b" ++ Json.stringifyFields fields ++ "\x7d"

def Json.stringifyElems : List Json → String
  | [] => ""
  | [v] => Json.stringify v
  | v :: rest => Json.stringify v ++ "," ++ Json.stringifyElems rest

def Json.stringifyFields : List (String × Json) → String
  | [] => ""
  | [(k, v)] => "\"" ++ escapeJsonString k ++ "\":" ++ Json.stringify v
  | (k, v) :: rest =>
    "\"" ++ escapeJsonString k ++ "\":" ++ Json.stringify v ++ "," ++ Json.stringifyFields rest

end

/-! ### String utilities (JS string semantics over `List Char`) -/

/-- JS `String.prototype.split` on a single-character separator (no
limit): `"a&&b".split('&') = ["a","","b"]`, `"".split('&') = [""]`. -/
def splitCh (sep : Char) : List Char → List (List Char)
  | [] => [[]]
  | c :: rest =>
    match splitCh sep rest with
    | h :: t => if c = sep then [] :: h :: t else (c :: h) :: t
    | [] => if c = sep then [[], []] else [[c]]

/-- JS `String.prototype.includes` on strings, via `List Char`. -/
def listHasSub (sub : List Char) : List Char → Bool
  | [] => sub.isEmpty
  | c :: rest => (sub.isPrefixOf (c :: rest)) || listHasSub sub rest

/-- JS `String.prototype.includes`. -/
def jsIncludes (s sub : String) : Bool :=
  listHasSub sub.data s.data

/-- JS `String.prototype.toLowerCase` (ASCII range, which is all the
sources use it on). -/
def jsToLowerCase (s : String) : String :=
  String.mk (s.data.map Char.toLower)

/-- JS `String.prototype.trim` amounts, for the emptiness check the
sources make (`body.trim() === ''`), to "all characters are
whitespace". -/
def jsIsBlank (s : String) : Bool :=
  s.data.all Char.isWhitespace

/-! ### A JSON parser modelling `JSON.parse`

The sources serialize with `JSON.stringify` and re-parse with
`JSON.parse` when payloads cross the handler/dispatcher boundary.  The
parser below covers the JSON fragment the pipeline traffics in
(objects, arrays, strings with simple escapes, integer numbers,
booleans, `null`); a malformed input yields `Except.error`, modelling
the `SyntaxError` thrown by `JSON.parse`. -/

def openBraceChar : Char := Char.ofNat 123

def closeBraceChar : Char := Char.ofNat 125

def isJsonWs (c : Char) : Bool :=
  c = ' ' || c = '\n' || c = '\t' || c = '\r'

def skipWs : List Char → List Char
  | [] => []
  | c :: rest => if isJsonWs c then skipWs rest else c :: rest

/-- Parse the body of a JSON string literal (after the opening quote),
returning the content and the remainder after the closing quote. -/
def pStr : List Char → Except String (List Char × List Char)
  | [] => .error "Unterminated string in JSON"
  | '\\' :: e :: rest => do
    let c ← match e with
      | '"' => Except.ok '"'
      | '\\' => Except.ok '\\'
      | '/' => Except.ok '/'
      | 'n' => Except.ok '\n'
      | 't' => Except.ok '\t'
      | 'r' => Except.ok '\r'
      | _ => Except.error "Unsupported escape in JSON string"
    let (cs, rest') ← pStr rest
    Except.ok (c :: cs, rest')
  | c :: rest =>
    if c = '"' then .ok ([], rest)
    else (pStr rest).map (fun p => (c :: p.1, p.2))

def digitVal (c : Char) : Option Nat :=
  if '0' ≤ c ∧ c ≤ '9' then some (c.toNat - '0'.toNat) else none

/-- Parse a run of decimal digits (at least one). -/
def pDigits (acc : Nat) : List Char → Option (Nat × List Char)
  | [] => some (acc, [])
  | c :: rest =>
    match digitVal c with
    | some d => pDigits (acc * 10 + d) rest
    | none => some (acc, c :: rest)

def pNum : List Char → Except String (Int × List Char)
  | '-' :: c :: rest =>
    (match digitVal c with
     | some d =>
       match pDigits d rest with
       | some (n, rest') => .ok (-(n : Int), rest')
       | none => .error "bad number"
     | none => .error "Unexpected token in JSON")
  | c :: rest =>
    (match digitVal c with
     | some d =>
       match pDigits d rest with
       | some (n, rest') => .ok ((n : Int), rest')
       | none => .error "bad number"
     | none => .error "Unexpected token in JSON")
  | [] => .error "Unexpected end of JSON input"

mutual

def pValue (fuel : Nat) (cs : List Char) : Except String (Json × List Char) :=
  match fuel with
  | 0 => .error "JSON nesting too deep"
  | fuel + 1 =>
    match skipWs cs with
    | 'n' :: 'u' :: 'l' :: 'l' :: rest => .ok (.null, rest)
    | 't' :: 'r' :: 'u' :: 'e' :: rest => .ok (.bool true, rest)
    | 'f' :: 'a' :: 'l' :: 's' :: 'e' :: rest => .ok (.bool false, rest)
    | '"' :: rest => (pStr rest).map (fun p => (.str (String.mk p.1), p.2))
    | '[' :: rest =>
      (match skipWs rest with
       | ']' :: rest' => .ok (.arr [], rest')
       | cs' => (pElems fuel cs').map (fun p => (.arr p.1, p.2)))
    | c :: rest =>
      if c = openBraceChar then
        match skipWs rest with
        | c' :: rest' =>
          if c' = closeBraceChar then .ok (.obj [], rest')
          else pFields fuel (c' :: rest')
        | [] => .error "Unexpected end of JSON input"
      else (pNum (c :: rest)).map (fun p => (.num p.1, p.2))
    | [] => .error "Unexpected end of JSON input"

def pElems (fuel : Nat) (cs : List Char) : Except String (List Json × List Char) :=
  match fuel with
  | 0 => .error "JSON nesting too deep"
  | fuel + 1 => do
    let (v, rest) ← pValue fuel cs
    match skipWs rest with
    | ',' :: rest' => (pElems fuel rest').map (fun p => (v :: p.1, p.2))
    | ']' :: rest' => .ok ([v], rest')
    | _ => .error "Expected comma or bracket in JSON array"

def pFields (fuel : Nat) (cs : List Char) : Except String (Json × List Char) :=
  match fuel with
  | 0 => .error "JSON nesting too deep"
  | fuel + 1 =>
    match skipWs cs with
    | '"' :: rest => do
      let (key, rest₁) ← pStr rest
      match skipWs rest₁ with
      | ':' :: rest₂ => do
        let (v, rest₃) ← pValue fuel rest₂
        match skipWs rest₃ with
        | ',' :: rest₄ => do
          let (more, rest₅) ← pFields fuel rest₄
          match more with
          | .obj fields => Except.ok (.obj ((String.mk key, v) :: fields), rest₅)
          | _ => Except.error "impossible"
        | c :: rest₄ =>
          if c = closeBraceChar then .ok (.obj [(String.mk key, v)], rest₄)
          else .error "Expected comma or brace in JSON object"
        | [] => .error "Unexpected end of JSON input"
      | _ => .error "Expected colon in JSON object"
    | _ => .error "Expected string key in JSON object"

end

/-- `JSON.parse`. -/
def Json.parse (s : String) : Except String Json :=
  match pValue (s.length * 2 + 8) s.data with
  | .ok (v, rest) =>
    if (skipWs rest).isEmpty then .ok v else .error "Unexpected trailing characters in JSON"
  | .error e => .error e

/-! ### `decodeURIComponent` and the iterative form-value decoder

`decodeFormValue` (ingestion lambda) repeatedly applies
`decodeURIComponent(value.replace(/\+/g, ' '))` until the value stops
changing, or keeps the last successfully decoded value when a decode
step throws.  `decodeURIComponent` is modelled by `pdChars`:
percent-escapes are decoded as UTF-8 byte sequences and any malformed
escape or invalid sequence fails (`none`, modelling `URIError`). -/

def hexVal (c : Char) : Option Nat :=
  if '0' ≤ c ∧ c ≤ '9' then some (c.toNat - '0'.toNat)
  else if 'a' ≤ c ∧ c ≤ 'f' then some (c.toNat - 'a'.toNat + 10)
  else if 'A' ≤ c ∧ c ≤ 'F' then some (c.toNat - 'A'.toNat + 10)
  else none

/-- A percent-encoded UTF-8 continuation byte (must lie in `[0x80, 0xBF]`). -/
def contByte (h1 h2 : Char) : Option Nat :=
  match hexVal h1, hexVal h2 with
  | some a, some b =>
    let v := 16 * a + b
    if 0x80 ≤ v ∧ v ≤ 0xBF then some v else none
  | _, _ => none


/-- Decode one position of a percent-encoded sequence: either a plain
character, or a full `%XX`(-led UTF-8) escape sequence.  Returns the
decoded character and the unconsumed remainder; `none` on a malformed
or invalid escape (the `URIError` case of `decodeURIComponent`). -/
def pdToken : List Char → Option (Char × List Char)
  | [] => none
  | '%' :: rest =>
    (match rest with
     | h1 :: h2 :: rest₁ =>
       match hexVal h1, hexVal h2 with
       | some a, some b =>
         let byte := 16 * a + b
         if byte < 0x80 then some (Char.ofNat byte, rest₁)
         else if 0xC2 ≤ byte ∧ byte ≤ 0xDF then
           match rest₁ with
           | '%' :: h3 :: h4 :: rest₂ =>
             (match contByte h3 h4 with
              | some b2 => some (Char.ofNat ((byte - 0xC0) * 64 + (b2 - 0x80)), rest₂)
              | none => none)
           | _ => none
         else if 0xE0 ≤ byte ∧ byte ≤ 0xEF then
           match rest₁ with
           | '%' :: h3 :: h4 :: '%' :: h5 :: h6 :: rest₂ =>
             (match contByte h3 h4, contByte h5 h6 with
              | some b2, some b3 =>
                let cp := (byte - 0xE0) * 4096 + (b2 - 0x80) * 64 + (b3 - 0x80)
                if cp < 0x800 ∨ (0xD800 ≤ cp ∧ cp ≤ 0xDFFF) then none
                else some (Char.ofNat cp, rest₂)
              | _, _ => none)
           | _ => none
         else if 0xF0 ≤ byte ∧ byte ≤ 0xF4 then
           match rest₁ with
           | '%' :: h3 :: h4 :: '%' :: h5 :: h6 :: '%' :: h7 :: h8 :: rest₂ =>
             (match contByte h3 h4, contByte h5 h6, contByte h7 h8 with
              | some b2, some b3, some b4 =>
                let cp := (byte - 0xF0) * 262144 + (b2 - 0x80) * 4096 +
                  (b3 - 0x80) * 64 + (b4 - 0x80)
                if cp < 0x10000 ∨ 0x10FFFF < cp then none
                else some (Char.ofNat cp, rest₂)
              | _, _, _ => none)
           | _ => none
         else none
       | _, _ => none
     | _ => none)
  | c :: rest => some (c, rest)

/-- A decoded token is either a plain character passed through
unchanged, or an escape that consumed at least three characters. -/
theorem pdToken_spec (l : List Char) (c : Char) (rest : List Char)
    (h : pdToken l = some (c, rest)) :
    (l = c :: rest ∧ c ≠ '%') ∨ rest.length + 3 ≤ l.length := by
  match l with
  | [] => simp [pdToken] at h
  | x :: xs =>
    by_cases hx : x = '%'
    · subst hx
      right
      simp only [pdToken] at h
      repeat' split at h
      all_goals simp_all
    · left
      have : pdToken (x :: xs) = some (x, xs) := by
        conv_lhs => rw [pdToken.eq_def]
        split
        · rename_i heq; exact absurd heq (by simp)
        · rename_i heq; rw [List.cons.injEq] at heq; exact absurd heq.1 hx
        · rename_i heq; rw [List.cons.injEq] at heq; rw [heq.1, heq.2]
      rw [this] at h
      cases h
      exact ⟨rfl, hx⟩

/-- A decoded token strictly shrinks the remaining input. -/
theorem pdToken_rest_lt (l : List Char) (c : Char) (rest : List Char)
    (h : pdToken l = some (c, rest)) : rest.length < l.length := by
  rcases pdToken_spec l c rest h with ⟨heq, _⟩ | hlen
  · rw [heq]; simp
  · omega

/-- Percent-decoding of a whole character sequence: the behaviour of JS
`decodeURIComponent` on the underlying sequence. -/
def pdChars (l : List Char) : Option (List Char) :=
  match l with
  | [] => some []
  | x :: xs =>
    match h : pdToken (x :: xs) with
    | some (c, rest) => (pdChars rest).map (fun m => c :: m)
    | none => none
termination_by l.length
decreasing_by exact pdToken_rest_lt _ _ _ h

/-- A successful percent-decode either leaves the input unchanged or
strictly shrinks it (each consumed escape turns at least three input
characters into one output character). -/
theorem pdChars_shrink (l : List Char) :
    ∀ m, pdChars l = some m → m = l ∨ m.length < l.length := by
  induction l using pdChars.induct with
  | case1 =>
    intro m hm
    rw [pdChars] at hm
    cases hm
    exact Or.inl rfl
  | case2 x xs c rest htok ih =>
    intro m hm
    rw [pdChars, htok] at hm
    dsimp only at hm
    rw [Option.map_eq_some'] at hm
    obtain ⟨m', hmap, rfl⟩ := hm
    rcases ih m' hmap with rfl | hlt
    · rcases pdToken_spec _ _ _ htok with ⟨heq, _⟩ | hlen
      · exact Or.inl heq.symm
      · right
        simp only [List.length_cons] at hlen ⊢
        omega
    · right
      have hr := pdToken_rest_lt _ _ _ htok
      simp only [List.length_cons] at hr ⊢
      omega
  | case3 x xs htok =>
    intro m hm
    rw [pdChars, htok] at hm
    cases hm

/-- `value.replace(/\+/g, ' ')`. -/
def replacePlus (l : List Char) : List Char :=
  l.map (fun c => if c = '+' then ' ' else c)

theorem replacePlus_length (l : List Char) : (replacePlus l).length = l.length := by
  simp [replacePlus]

theorem replacePlus_no_plus (l : List Char) : '+' ∉ replacePlus l := by
  intro hmem
  simp only [replacePlus, List.mem_map] at hmem
  obtain ⟨a, _, ha⟩ := hmem
  by_cases h : a = '+'
  · rw [if_pos h] at ha
    exact absurd ha (by decide)
  · rw [if_neg h] at ha
    exact h ha

theorem replacePlus_eq_self (l : List Char) (h : '+' ∉ l) : replacePlus l = l := by
  induction l with
  | nil => rfl
  | cons c rest ih =>
    simp only [List.mem_cons, not_or] at h
    simp only [replacePlus, List.map_cons]
    rw [List.cons.injEq]
    constructor
    · rw [if_neg]
      intro hc
      exact h.1 hc.symm
    · have := ih h.2
      simpa [replacePlus] using this

/-- One iteration of the decode loop:
`decodeURIComponent(value.replace(/\+/g, ' '))`. -/
def decodeStep (l : List Char) : Option (List Char) :=
  pdChars (replacePlus l)

/-- The loop measure: each productive iteration either shrinks the
value or removes its last `'+'`. -/
def decodeMeasure (l : List Char) : Nat :=
  2 * l.length + (if '+' ∈ l then 1 else 0)

theorem decodeStep_decreases (d d' : List Char) (h : decodeStep d = some d') (hne : d' ≠ d) :
    decodeMeasure d' < decodeMeasure d := by
  rcases pdChars_shrink _ _ h with heq | hlt
  · -- the percent-decode was the identity, so the change came from `+` replacement
    have hplus : '+' ∈ d := by
      by_contra hn
      rw [heq, replacePlus_eq_self d hn] at hne
      exact hne rfl
    have hnoplus : '+' ∉ replacePlus d := replacePlus_no_plus d
    simp only [decodeMeasure, heq, replacePlus_length, if_pos hplus, if_neg hnoplus]
    omega
  · rw [replacePlus_length] at hlt
    simp only [decodeMeasure]
    have h1 : (if '+' ∈ d' then 1 else 0) ≤ 1 := by split <;> omega
    have h2 : 0 ≤ (if '+' ∈ d then 1 else 0) := by omega
    omega

/-- The `while (decoded !== previousDecoded)` loop of `decodeFormValue`
(ingestion lambda): repeat the decode step until it yields the value
unchanged, or keep the current (last successfully decoded) value when a
step fails.  Totality of this definition is the termination claim for
the source loop. -/
def decodeLoopL (d : List Char) : List Char :=
  match h : decodeStep d with
  | none => d
  | some d' =>
    if hne : d' = d then d
    else decodeLoopL d'
termination_by decodeMeasure d
decreasing_by exact decodeStep_decreases _ _ h hne

/-- `decodeFormValue` (ingestion lambda): `null`/`undefined` pass
through; otherwise run the iterative decode loop. -/
def decodeFormValue (value : Option String) : Option String :=
  match value with
  | none => none
  | some s => some (String.mk (decodeLoopL s.data))

/-- The loop's result is a fixed point of the decode step, or the decode
step fails on it (it is the last successfully decoded value). -/
theorem decodeLoopL_spec (d : List Char) :
    decodeStep (decodeLoopL d) = some (decodeLoopL d) ∨ decodeStep (decodeLoopL d) = none := by
  induction d using decodeLoopL.induct with
  | case1 d h =>
    have hd : decodeLoopL d = d := by
      rw [decodeLoopL.eq_def]
      split
      · rfl
      · rename_i d' heq
        rw [h] at heq
        cases heq
    rw [hd]
    exact Or.inr h
  | case2 d h =>
    have hd : decodeLoopL d = d := by
      rw [decodeLoopL.eq_def]
      split
      · rfl
      · rename_i d' heq
        rw [h] at heq
        cases heq
        simp
    rw [hd]
    exact Or.inl h
  | case3 d d' h hne ih =>
    have hd : decodeLoopL d = decodeLoopL d' := by
      rw [decodeLoopL.eq_def]
      split
      · rename_i heq
        rw [h] at heq
        cases heq
      · rename_i e heq
        rw [h] at heq
        cases heq
        rw [dif_neg hne]
    rw [hd]
    exact ih

/-! ### `getNestedProperty` (src/lambda/utils/object-utils.js)

Dot-notation traversal: `if (!obj || !path) return undefined;` then for
each segment of `path.split('.')`, the current value must be a non-null
`'object'` (plain object or array) or the result is `undefined`. -/

def nestedGo : List String → Option Json → Option Json
  | [], cur => cur
  | key :: keys, cur =>
    match cur with
    | some c =>
      -- `current === null || current === undefined || typeof current !== 'object'`
      if c.typeofObject ∧ ¬c.isNull then nestedGo keys (c.jLookup key)
      else none
    | none => none

def getNestedProperty (obj : Json) (path : String) : Option Json :=
  if ¬obj.truthy ∨ path = "" then none
  else nestedGo ((splitCh '.' path.data).map String.mk) (some obj)

/-! ### `getVendorsLeadId` (src/lambda/utils/vendors-data.js)

The ingestion-response lead-id resolver.  `Date.now()` and the 6-char
`Math.random()` suffix are passed in as `now`/`rand`.  A configured
`leadIdProperty` that is truthy but not a string would make
`idPropertyName.includes` throw a `TypeError` in JS; that case is
returned as `Except.error`. -/

/-- `generateUniqueLeadId` (same file): `requestId_now_rand` when the
data has a truthy `requestId`, else `now_rand`. -/
def generateUniqueLeadId (data : Json) (now : Nat) (rand : String) : String :=
  if data.truthy ∧ Json.otruthy (data.jLookup "requestId") then
    jsToString ((data.jLookup "requestId").getD .null) ++ "_" ++ toString now ++ "_" ++ rand
  else
    toString now ++ "_" ++ rand

def getVendorsLeadId (data : Json) (vendorsConfig : Json) (vendorName : String)
    (now : Nat) (rand : String) : Except String Json :=
  if ¬data.truthy then
    .ok (.str (generateUniqueLeadId data now rand))
  else
    -- `vendorsConfig[vendorName]?.leadIdProperty` — note: no lowercasing here
    let idPropertyName : Option Json :=
      (vendorsConfig.jLookup vendorName).bind (fun entry => entry.jLookup "leadIdProperty")
    match idPropertyName with
    | some p =>
      if p.truthy then
        match p with
        | .str s =>
          let leadId : Option Json :=
            if jsIncludes s "." then getNestedProperty data s else data.jLookup s
          -- `return leadId || generateUniqueLeadId(data)`
          .ok (if Json.otruthy leadId then leadId.getD .null
               else .str (generateUniqueLeadId data now rand))
        | _ => .error "TypeError: idPropertyName.includes is not a function"
      else .ok (.str (generateUniqueLeadId data now rand))
    | none => .ok (.str (generateUniqueLeadId data now rand))

/-! ### `getVendorsConfig` (src/lambda/utils/vendors-config.js and the
copy in src/lambda/database/ddb-writer.js)

Fetches one SSM parameter and parses its value as JSON.  Any failure —
the client call throwing, a response without a parameter or without a
value (an empty value is falsy and hits the same branch), or
`JSON.parse` throwing — is caught and the function returns the empty
mapping.  The SSM call is modelled by an oracle outcome. -/

structure SsmParam where
  value : Option String

inductive SsmOutcome where
  | throw (e : String)
  | ok (parameter : Option SsmParam)

def getVendorsConfig (ssm : SsmOutcome) : Json :=
  match ssm with
  | .throw _ => .obj []
  | .ok parameter =>
    match parameter with
    | some p =>
      (match p.value with
       | some v =>
         if v ≠ "" then
           match Json.parse v with
           | .ok cfg => cfg
           | .error _ => .obj []
         else .obj []
       | none => .obj [])
    | none => .obj []

/-! ### Request normalization (ingestion lambda)

`getVendor`, `getLeadsData`, `decodeKeyValuePair`, `decodeURLParams`,
`decodeURLParamsInBody`.  The HTTP event carries the raw body string;
header/query lookups are exact-key.  In this handler variant
`decodeFormValue` never throws (it breaks out of its loop on a failed
decode), so the `try/catch` in `decodeKeyValuePair` never fires. -/

structure HttpEvent where
  httpMethod : String
  headers : List (String × String)
  queryStringParameters : List (String × String)
  body : Option String

/-- JS property read from a string map (`undefined` when absent). -/
def mapGet (m : List (String × String)) (k : String) : Option String :=
  (m.find? (fun p => p.1 = k)).map (fun p => p.2)

/-- JS truthiness of an optional string. -/
def ostrTruthy : Option String → Bool
  | some s => s ≠ ""
  | none => false

/-- JS `a || b` on optional strings. -/
def jsOrStr (a : Option String) (b : Option String) : Option String :=
  if ostrTruthy a then a else b

def getVendor (event : HttpEvent) : Option String :=
  if ostrTruthy (mapGet event.headers "vendor") then mapGet event.headers "vendor"
  else if ostrTruthy (mapGet event.queryStringParameters "vendor") then
    mapGet event.queryStringParameters "vendor"
  else none

/-- `decodeFormValue` applied to a plain string (the non-null case). -/
def decodeFormValueS (s : String) : String :=
  String.mk (decodeLoopL s.data)

/-- `decodeKeyValuePair`: decode key and value; the surrounding
`try/catch` is dead in this variant since `decodeFormValue` cannot
throw. -/
def decodeKeyValuePair (key : String) (value : Option String) : String × Option String :=
  (decodeFormValueS key, (decodeFormValue value))

/-- JS object insertion: `params[k] = v` (overwrite keeps the original
key position, otherwise append). -/
def objAssign (params : List (String × Json)) (k : String) (v : Json) : List (String × Json) :=
  if params.any (fun p => p.1 = k) then
    params.map (fun p => if p.1 = k then (k, v) else p)
  else params ++ [(k, v)]

/-- `decodeURLParams`: decode every key and value of a string map into a
fresh object. -/
def decodeURLParams (params : List (String × String)) : List (String × Json) :=
  params.foldl
    (fun acc kv =>
      let dk := decodeFormValueS kv.1
      let dv := decodeFormValueS kv.2
      objAssign acc dk (.str dv))
    []

/-- `decodeURLParamsInBody`: split the raw body on `&`, each pair on
`=` (keeping the first two components, as JS array destructuring of
`split('=')` does), treat a missing or empty value as `null`, skip
empty keys, decode, and assign into the result object. -/
def decodeURLParamsInBody (body : String) : List (String × Json) :=
  if body = "" ∨ jsIsBlank body then []
  else
    (splitCh '&' body.data).foldl
      (fun params pairChars =>
        let comps := splitCh '=' pairChars
        let key := String.mk (comps.headD [])
        let value : Option String := (comps.drop 1).head?.map String.mk
        if key = "" then params
        else
          let actualValue : Option String :=
            match value with
            | none => none
            | some v => if v = "" then none else some v
          let dk := decodeFormValueS key
          let dv := decodeFormValue actualValue
          objAssign params dk (match dv with | some s => .str s | none => .null))
      []

/-- `getLeadsData` (ingestion lambda, main handler variant): body
present → form-decoded params (vendor stripped) re-serialized, or the
raw body for any other content type; no body → query parameters
(vendor stripped) decoded and serialized; `null` when nothing
remains. -/
def getLeadsData (event : HttpEvent) : Option String :=
  match event.body with
  | some b =>
    if b.length > 0 then
      let contentType :=
        (jsOrStr (mapGet event.headers "Content-type")
          (jsOrStr (mapGet event.headers "content-type")
            (mapGet event.headers "Content-Type"))).getD ""
      if jsIncludes contentType "application/x-www-form-urlencoded" then
        let bodyParams := decodeURLParamsInBody b
        let bodyParams :=
          if Json.otruthy ((Json.obj bodyParams).jLookup "vendor") then
            bodyParams.filter (fun p => p.1 ≠ "vendor")
          else bodyParams
        if bodyParams.isEmpty then none
        else some (Json.stringify (.obj bodyParams))
      else some b
    else getLeadsDataFromQuery event
  | none => getLeadsDataFromQuery event
where
  /-- The no-body branch: `{...event.queryStringParameters}` with
  `vendor` deleted (when truthy), decoded and serialized. -/
  getLeadsDataFromQuery (event : HttpEvent) : Option String :=
    let q := event.queryStringParameters
    let q :=
      if ostrTruthy (mapGet q "vendor") then q.filter (fun p => p.1 ≠ "vendor")
      else q
    if q.isEmpty then none
    else some (Json.stringify (.obj (decodeURLParams q)))

/-! ### Batch dispatchers (ingestion lambda)

`sendLeadsToSQS` and `sendLeadsToEventBridge`: parse the payload if it
is a string, wrap a non-array into a one-element array, split into
chunks of at most 10, and issue one transport call per chunk.  The
transport outcomes are an oracle indexed by chunk position.  The queue
side catches everything per chunk; the bus side logs per-entry
failures but re-raises a thrown transport error. -/

/-- The `for (let i = 0; i < leads.length; i += 10)` slicing loop,
fuelled by the list length so that it is structurally recursive (each
iteration drops at least one element, so the fuel never runs out). -/
def chunkGo {α : Type} : Nat → List α → List (List α)
  | _, [] => []
  | 0, _ :: _ => []
  | fuel + 1, x :: xs => ((x :: xs).take 10) :: chunkGo fuel ((x :: xs).drop 10)

def chunkList10 {α : Type} (l : List α) : List (List α) :=
  chunkGo l.length l

theorem chunkGo_fuel_irrel {α : Type} : ∀ (l : List α) (fuel₁ fuel₂ : Nat),
    l.length ≤ fuel₁ → l.length ≤ fuel₂ → chunkGo fuel₁ l = chunkGo fuel₂ l
  | [], f₁, f₂, _, _ => by cases f₁ <;> cases f₂ <;> rfl
  | x :: xs, f₁ + 1, f₂ + 1, h₁, h₂ => by
    simp only [chunkGo]
    rw [List.cons.injEq]
    refine ⟨rfl, ?_⟩
    exact chunkGo_fuel_irrel ((x :: xs).drop 10) f₁ f₂
      (by simp only [List.length_drop, List.length_cons] at *; omega)
      (by simp only [List.length_drop, List.length_cons] at *; omega)
  | _ :: _, 0, _, h₁, _ => by simp at h₁
  | _ :: _, _ + 1, 0, _, h₂ => by simp at h₂
termination_by l _ _ _ _ => l.length
decreasing_by simp only [List.length_drop, List.length_cons]; omega

/-- The loop unfolding of `chunkList10` on a non-empty list. -/
theorem chunkList10_ne_nil {α : Type} (l : List α) (h : l ≠ []) :
    chunkList10 l = l.take 10 :: chunkList10 (l.drop 10) := by
  cases l with
  | nil => exact absurd rfl h
  | cons x xs =>
    show chunkGo (xs.length + 1) (x :: xs) = _
    simp only [chunkGo]
    rw [List.cons.injEq]
    refine ⟨rfl, ?_⟩
    exact chunkGo_fuel_irrel ((x :: xs).drop 10) xs.length ((x :: xs).drop 10).length
      (by simp only [List.length_drop, List.length_cons]; omega) (le_refl _)

/-- An SQS `SendMessageBatch` entry `{Id, MessageBody}`. -/
structure SqsEntry where
  id : String
  messageBody : String

/-- One `SendMessageBatchCommand` issued to the queue. -/
structure SqsBatch where
  entries : List SqsEntry

/-- Outcome of one `sqsClient.send`: a thrown transport error, or a
response with the identifiers of entries reported in `Failed`. -/
inductive SqsOutcome where
  | throw (e : String)
  | resp (failed : List String)

/-- Build the entries of one chunk's batch:
`Id = requestId + index` (index local to the chunk) and a JSON
message body `{requestId, vendor, lead}`. -/
def sqsChunkEntries (requestId vendor : String) (chunk : List Json) : List SqsEntry :=
  chunk.enum.map (fun li =>
    { id := requestId ++ toString li.1,
      messageBody := Json.stringify (.obj
        [("requestId", .str requestId), ("vendor", .str vendor), ("lead", li.2)]) })

/-- The per-chunk loop of `sendLeadsToSQS`: every chunk issues its
batch; a thrown send and a response with `Failed` entries are both
only logged (the `try/catch` swallows), so iteration always
continues. -/
def sqsGo (outcome : Nat → SqsOutcome) (requestId vendor : String) :
    List (List Json) → Nat → List SqsBatch
  | [], _ => []
  | chunk :: rest, ci =>
    let batch : SqsBatch := ⟨sqsChunkEntries requestId vendor chunk⟩
    match outcome ci with
    | .throw _ => batch :: sqsGo outcome requestId vendor rest (ci + 1)
    | .resp _ => batch :: sqsGo outcome requestId vendor rest (ci + 1)

/-- `Array.isArray(parsedLeadsData) ? parsedLeadsData :
[parsedLeadsData]`. -/
def toLeadsArray : Json → List Json
  | .arr xs => xs
  | j => [j]

/-- `sendLeadsToSQS`: the only way it can throw is `JSON.parse` of a
string payload (which sits outside the per-chunk `try`); otherwise it
returns the list of batch commands it issued, regardless of transport
outcomes. -/
def sendLeadsToSQS (outcome : Nat → SqsOutcome) (requestId vendor : String)
    (leadsData : String) : Except String (List SqsBatch) :=
  match Json.parse leadsData with
  | .error e => .error e
  | .ok parsed =>
    .ok (sqsGo outcome requestId vendor (chunkList10 (toLeadsArray parsed)) 0)

/-- One `PutEventsCommand` entry. -/
structure EbEntry where
  eventBusName : String
  source : String
  detailType : String
  detail : String

/-- One `PutEventsCommand` issued to the bus (always a single entry). -/
structure EbCall where
  entries : List EbEntry

/-- Outcome of one `ebClient.send`: a thrown transport error, or a
response with a `FailedEntryCount`. -/
inductive EbOutcome where
  | throw (e : String)
  | resp (failedEntryCount : Nat)

/-- The environment variables naming the bus, rule source and detail
type. -/
structure EbEnv where
  busName : String
  source : String
  detailType : String

def ebChunkEntry (env : EbEnv) (vendor : String) (chunk : List Json) : EbEntry :=
  { eventBusName := env.busName,
    source := env.source,
    detailType := env.detailType,
    detail := Json.stringify (.obj [("vendor", .str vendor), ("leads", .arr chunk)]) }

/-- The per-chunk loop of `sendLeadsToEventBridge`: each chunk issues
exactly one `PutEvents` call with a single entry whose detail is
`{vendor, leads: chunk}`.  A response with failed entries is only
logged; a thrown send is logged and **re-thrown**, aborting the
loop. -/
def ebGo (env : EbEnv) (outcome : Nat → EbOutcome) (vendor : String) :
    List (List Json) → Nat → Except String (List EbCall)
  | [], _ => .ok []
  | chunk :: rest, ci =>
    let call : EbCall := ⟨[ebChunkEntry env vendor chunk]⟩
    match outcome ci with
    | .throw e => .error e
    | .resp _ => (ebGo env outcome vendor rest (ci + 1)).map (fun calls => call :: calls)

/-- `sendLeadsToEventBridge`. -/
def sendLeadsToEventBridge (env : EbEnv) (outcome : Nat → EbOutcome) (vendor : String)
    (leadsData : String) : Except String (List EbCall) :=
  match Json.parse leadsData with
  | .error e => .error e
  | .ok parsed =>
    ebGo env outcome vendor (chunkList10 (toLeadsArray parsed)) 0

/-! ### Vendor response factory (src/lambda/utils/vendors-response.js)

`createVendorResponse` switches on `vendor.toLowerCase()`;
`buildLendingTreeResponse` builds the bespoke acknowledgement; the
default branch builds `{status, message}` where the error message comes
from `responseData?.errorMessage || 'Failed to process leads
request.'`.  `createHttpResponse` wraps the body with status code and
CORS headers. -/

def buildLendingTreeResponse (responseData : Json) (isSuccess : Bool) : Json :=
  .obj [("leadAcknowledgement", .obj
    [("leadExternalId", jsOrJson (responseData.jLookup "leadId") .null),
     ("partnerDecision", .str (cond isSuccess "accepted" "rejected")),
     ("attemptRetransmit", .bool (!isSuccess))])]

def createVendorResponse (vendor : String) (responseData : Json) (isSuccess : Bool) : Json :=
  if jsToLowerCase vendor = "lendingtree" then
    buildLendingTreeResponse responseData isSuccess
  else
    .obj [("status", .str (cond isSuccess "success" "error")),
          ("message",
            if isSuccess then .str "Leads processed asynchronously."
            else jsOrJson (responseData.jLookup "errorMessage")
              (.str "Failed to process leads request."))]

structure LambdaResponse where
  statusCode : Nat
  headers : List (String × String)
  body : String

def createHttpResponse (statusCode : Nat) (vendor : String) (responseData : Json)
    (isSuccess : Bool) : LambdaResponse :=
  { statusCode := statusCode,
    headers :=
      [("Content-Type", "application/json"),
       ("Access-Control-Allow-Origin", "*"),
       ("Access-Control-Allow-Methods", "POST, OPTIONS"),
       ("Access-Control-Allow-Headers", "Content-Type, vendor")],
    body := Json.stringify (createVendorResponse vendor responseData isSuccess) }

/-! ### `extractLeadIdFromNonArrayData` and the ingestion handler
(the main handler variant, the one using `createHttpResponse`) -/

/-- `extractLeadIdFromNonArrayData`: falsy data or a non-object/array
payload resolve to `null`; otherwise fetch the vendors config and run
the resolver.  `JSON.parse` of an invalid string payload throws. -/
def extractLeadIdFromNonArrayData (ssm : SsmOutcome) (now : Nat) (rand : String)
    (leadsData : Option String) (vendorName : String) : Except String Json :=
  match leadsData with
  | none => .ok .null
  | some s =>
    if s = "" then .ok .null
    else
      match Json.parse s with
      | .error e => .error e
      | .ok parsed =>
        match parsed with
        | .arr _ => .ok .null
        | .obj _ =>
          let vendorsConfig := getVendorsConfig ssm
          getVendorsLeadId parsed vendorsConfig vendorName now rand
        | .null =>
          -- `typeof null === 'object'` and `null` is not an array, so
          -- a `"null"` payload reaches the resolver (and takes its
          -- falsy-data fallback)
          let vendorsConfig := getVendorsConfig ssm
          getVendorsLeadId parsed vendorsConfig vendorName now rand
        | _ => .ok .null

/-- All external effects and nondeterminism of one handler
invocation. -/
structure HandlerEnv where
  ssm : SsmOutcome
  sqsOutcome : Nat → SqsOutcome
  ebOutcome : Nat → EbOutcome
  eb : EbEnv
  now : Nat
  rand : String

/-- The `try` block of the handler after the OPTIONS short-circuit: on
error carries the JS error message together with the `vendor`/`leadId`
variables visible to the `catch` block. -/
def handlerTry (event : HttpEvent) (awsRequestId : String) (env : HandlerEnv) :
    Except (String × Option String × Option Json) LambdaResponse :=
  match getVendor event with
  | none =>
    .ok (createHttpResponse 400 "unknown" (.obj [("error", .str "Vendor name cannot be empty.")]) false)
  | some vendor =>
    match getLeadsData event with
    | none =>
      .ok (createHttpResponse 400 vendor
        (.obj [("error", .str "No lead data provided in body or query parameters.")]) false)
    | some leadsData =>
      match extractLeadIdFromNonArrayData env.ssm env.now env.rand (some leadsData) vendor with
      | .error e => .error (e, some vendor, none)
      | .ok leadId =>
        match sendLeadsToSQS env.sqsOutcome awsRequestId vendor leadsData with
        | .error e => .error (e, some vendor, some leadId)
        | .ok _ =>
          match sendLeadsToEventBridge env.eb env.ebOutcome vendor leadsData with
          | .error e => .error (e, some vendor, some leadId)
          | .ok _ => .ok (createHttpResponse 200 vendor (.obj [("leadId", leadId)]) true)

/-- The ingestion handler: OPTIONS preflight short-circuit, the `try`
block, and the `catch` block producing the 500 response
(`vendor || 'unknown'`, `{errorMessage, leadId}` with an unassigned
`leadId` omitted by `JSON.stringify`). -/
def handler (event : HttpEvent) (awsRequestId : String) (env : HandlerEnv) : LambdaResponse :=
  if event.httpMethod = "OPTIONS" then
    { statusCode := 200,
      headers :=
        [("Access-Control-Allow-Origin", "*"),
         ("Access-Control-Allow-Methods", "POST, PUT, PATCH, OPTIONS"),
         ("Access-Control-Allow-Headers", "Content-Type, vendor"),
         ("Access-Control-Max-Age", "86400")],
      body := Json.stringify (.obj [("message", .str "CORS preflight successful")]) }
  else
    match handlerTry event awsRequestId env with
    | .ok response => response
    | .error (e, vendor, leadId) =>
      let vendorName := match vendor with
        | some v => if v ≠ "" then v else "unknown"
        | none => "unknown"
      let errorMessage := if e ≠ "" then e else "Internal Server Error"
      let responseData : Json := .obj
        ([("errorMessage", .str errorMessage)] ++
          (match leadId with
           | some v => [("leadId", v)]
           | none => []))
      createHttpResponse 500 vendorName responseData false

/-! ### The store writer (src/lambda/database/ddb-writer.js)

The SQS-triggered handler parses each record body, builds one
`PutRequest` per message (resolving the lead id with the
vendors config, looked up under `message.vendor.toLowerCase()`), and
runs the `BatchWriteItem` retry loop: at most `MAX_RETRIES = 3` send
attempts, an exponential backoff `min(100 * 2^retryCount, 2000)` ms
before every retry, the unprocessed subset reported by each response
becoming the next request, a residue after the loop only logged, and a
thrown send propagating only once it has exhausted the retries. -/

/-- One item of a `PutRequest` as built by the writer. -/
structure DdbItem where
  leadIdAttr : String
  vendorNameAttr : String
  vendor : String
  receivedAt : String
  lead : Json

/-- The per-message lead-id resolution inlined in `saveToDynamoDB`.
Identical to `getVendorsLeadId` except that the config is indexed by
`message.vendor.toLowerCase()` and the fallback interpolates
`message.requestId` directly. -/
def writerResolveLeadId (vendorsConfig : Json) (message : Json) (now : Nat) (rand : String) :
    Except String Json :=
  let vendorStr := jsToString ((message.jLookup "vendor").getD .null)
  let lead := (message.jLookup "lead").getD .null
  let idPropertyName : Option Json :=
    (vendorsConfig.jLookup (jsToLowerCase vendorStr)).bind
      (fun entry => entry.jLookup "leadIdProperty")
  let leadId : Except String (Option Json) :=
    match idPropertyName with
    | some p =>
      if p.truthy then
        match p with
        | .str s =>
          .ok (if jsIncludes s "." then getNestedProperty lead s else lead.jLookup s)
        | _ => .error "TypeError: idPropertyName.includes is not a function"
      else .ok none
    | none => .ok none
  leadId.map (fun v =>
    if Json.otruthy v then v.getD .null
    else
      .str (jsToString ((message.jLookup "requestId").getD .null) ++ "_" ++
        toString now ++ "_" ++ rand))

/-- Build the `PutRequest` item for one queued message. -/
def writerPutRequest (vendorsConfig : Json) (message : Json) (now : Nat) (rand : String)
    (nowIso : String) : Except String DdbItem :=
  (writerResolveLeadId vendorsConfig message now rand).map (fun leadId =>
    let vendorStr := jsToString ((message.jLookup "vendor").getD .null)
    { leadIdAttr := "Lead#" ++ jsToString leadId,
      vendorNameAttr := "Vendor#" ++ vendorStr,
      vendor := vendorStr,
      receivedAt := nowIso,
      lead := (message.jLookup "lead").getD .null })

/-- `messages.map(...)` building all put requests (`Date.now()` and the
random suffix sampled per message). -/
def writerPutRequests (vendorsConfig : Json) (messages : List Json) (now : Nat → Nat)
    (rand : Nat → String) (nowIso : String) : Except String (List DdbItem) :=
  (messages.enum.mapM (fun mi => writerPutRequest vendorsConfig mi.2 (now mi.1) (rand mi.1) nowIso))

/-- Outcome of one `BatchWriteItemCommand` send: a thrown error, or a
response whose `UnprocessedItems` is `\x7b\x7d`/absent (`none`) or the
single-table map `\x7btable: items\x7d` (`some items`). -/
inductive DdbOutcome where
  | throw (e : String)
  | resp (unprocessed : Option (List DdbItem))

/-- One attempt of the retry loop as recorded in the trace: the backoff
waited before it and the `RequestItems` it carried (`some items` models
the single-table map, which counts as non-empty for the loop condition
even when `items` is `[]`). -/
structure DdbAttempt where
  delayMs : Nat
  request : Option (List DdbItem)

/-- Result of the retry loop: the attempts issued and the unprocessed
residue left when the loop exited (only logged, never thrown). -/
structure SaveTrace where
  attempts : List DdbAttempt
  residual : Option (List DdbItem)

/-- The `while (Object.keys(unprocessedItems).length > 0 && retryCount <
MAX_RETRIES)` loop of `saveToDynamoDB`.  `attemptIdx` indexes the
transport oracle by send attempt. -/
def saveLoop (outcome : Nat → DdbOutcome) (items : Option (List DdbItem))
    (retryCount : Nat) (attemptIdx : Nat) : Except String SaveTrace :=
  if h : items.isSome ∧ retryCount < 3 then
    let delay := if 0 < retryCount then min (100 * 2 ^ retryCount) 2000 else 0
    match outcome attemptIdx with
    | .resp unprocessed =>
      (saveLoop outcome unprocessed
          (if unprocessed.isSome then retryCount + 1 else retryCount) (attemptIdx + 1)).map
        (fun t => ⟨⟨delay, items⟩ :: t.attempts, t.residual⟩)
    | .throw e =>
      if retryCount + 1 ≥ 3 then .error e
      else
        (saveLoop outcome items (retryCount + 1) (attemptIdx + 1)).map
          (fun t => ⟨⟨delay, items⟩ :: t.attempts, t.residual⟩)
  else .ok ⟨[], items⟩
termination_by (cond items.isSome 1 0) + (3 - retryCount)
decreasing_by
  · obtain ⟨h1, h2⟩ := h
    cases hu : unprocessed.isSome <;> cases hi : items.isSome <;> simp_all <;> omega
  · obtain ⟨h1, h2⟩ := h
    cases hi : items.isSome <;> simp_all <;> omega

/-- `saveToDynamoDB`: fetch the vendors config, build the put requests,
and run the retry loop starting from the single-table map
`\x7b[TABLE]: putRequests\x7d` with `retryCount = 0`. -/
def saveToDynamoDB (outcome : Nat → DdbOutcome) (ssm : SsmOutcome) (messages : List Json)
    (now : Nat → Nat) (rand : Nat → String) (nowIso : String) : Except String SaveTrace :=
  let vendorsConfig := getVendorsConfig ssm
  match writerPutRequests vendorsConfig messages now rand nowIso with
  | .error e => .error e
  | .ok putRequests => saveLoop outcome (some putRequests) 0 0

/-- The SQS event consumed by the store writer. -/
structure DdbEvent where
  records : Option (List String)

/-- Observable run of the store-writer handler: how many times the
vendors config was fetched, and the outcome of the save (`ok none` =
the early return taken before any fetch or write). -/
structure DdbRun where
  ssmCalls : Nat
  outcome : Except String (Option SaveTrace)

/-- `JSON.parse` every record body; the first failure throws out of the
handler. -/
def parseRecordBodies : List String → Except String (List Json)
  | [] => .ok []
  | b :: rest =>
    match Json.parse b with
    | .error e => .error e
    | .ok m => (parseRecordBodies rest).map (fun ms => m :: ms)

/-- The store-writer handler: `if (!event.Records || event.Records.length
=== 0)` returns immediately; otherwise parse all bodies (rethrowing a
failure) and run `saveToDynamoDB` (rethrowing its failure). -/
def ddbHandler (event : DdbEvent) (outcome : Nat → DdbOutcome) (ssm : SsmOutcome)
    (now : Nat → Nat) (rand : Nat → String) (nowIso : String) : DdbRun :=
  match event.records with
  | none => ⟨0, .ok none⟩
  | some records =>
    if records.isEmpty then ⟨0, .ok none⟩
    else
      match parseRecordBodies records with
      | .error e => ⟨0, .error e⟩
      | .ok messages =>
        ⟨1, (saveToDynamoDB outcome ssm messages now rand nowIso).map some⟩

/-! ## Claims -/

/-- The environment with a lendingtree vendors config and all transports
succeeding. -/
def happyEnv : HandlerEnv :=
  { ssm := .ok (some ⟨some "\x7b\"lendingtree\":\x7b\"leadIdProperty\":\"Internal_LeadID\"\x7d\x7d"⟩),
    sqsOutcome := fun _ => .resp [],
    ebOutcome := fun _ => .resp 0,
    eb := ⟨"bus", "vendorleads.upsert", "LeadsReceived"⟩,
    now := 0,
    rand := "abcdef" }

/-- Claim C1: a `POST` request with no `vendor` header and no `vendor`
query parameter gets a 400 response — but its body is the generic
`\x7b"status":"error","message":"Failed to process leads request."\x7d`
and does **not** contain `"Vendor name cannot be empty."`: the handler
passes that text under the key `error` while `createVendorResponse`'s
default branch reads `errorMessage`, so the text is dropped. -/
theorem claim_C1_missing_vendor_body :
    (handler ⟨"POST", [], [], none⟩ "req1" happyEnv).statusCode = 400 ∧
    (handler ⟨"POST", [], [], none⟩ "req1" happyEnv).body =
      "\x7b\"status\":\"error\",\"message\":\"Failed to process leads request.\"\x7d" ∧
    jsIncludes (handler ⟨"POST", [], [], none⟩ "req1" happyEnv).body
      "Vendor name cannot be empty." = false := by
  refine ⟨rfl, rfl, ?_⟩
  decide

/-- The vendors config of claim C2's counterexample: one entry stored
under the lowercase key `lendingtree`. -/
def c2Config : Json := .obj [("lendingtree", .obj [("leadIdProperty", .str "id")])]

/-- The lead of claim C2's counterexample. -/
def c2Lead : Json := .obj [("id", .str "x")]

/-- Claim C2 (counterexample): with the entry stored under
`lendingtree`, the ingestion-response resolver applies it for the
exact-case vendor name but **not** for `LendingTree` (it falls back to
the generated identifier), while the store-writer resolver applies it
for `LendingTree` — so the echo-path lookup is not case-insensitive. -/
theorem claim_C2_counterexample :
    getVendorsLeadId c2Lead c2Config "lendingtree" 0 "abcdef" = .ok (.str "x") ∧
    getVendorsLeadId c2Lead c2Config "LendingTree" 0 "abcdef" = .ok (.str "0_abcdef") ∧
    writerResolveLeadId c2Config
      (.obj [("requestId", .str "r1"), ("vendor", .str "LendingTree"), ("lead", c2Lead)])
      0 "abcdef" = .ok (.str "x") := by
  refine ⟨rfl, rfl, rfl⟩

/-- The store-writer resolution seen as a function of the lowercased
vendor name (definitionally equal to `writerResolveLeadId` on a queued
message, used to state its case-insensitivity). -/
def writerResolveCore (vendorsConfig : Json) (vendorLower : String) (lead : Json)
    (requestIdStr : String) (now : Nat) (rand : String) : Except String Json :=
  let idPropertyName : Option Json :=
    (vendorsConfig.jLookup vendorLower).bind (fun entry => entry.jLookup "leadIdProperty")
  let leadId : Except String (Option Json) :=
    match idPropertyName with
    | some p =>
      if p.truthy then
        match p with
        | .str s =>
          .ok (if jsIncludes s "." then getNestedProperty lead s else lead.jLookup s)
        | _ => .error "TypeError: idPropertyName.includes is not a function"
      else .ok none
    | none => .ok none
  leadId.map (fun v =>
    if Json.otruthy v then v.getD .null
    else .str (requestIdStr ++ "_" ++ toString now ++ "_" ++ rand))

theorem writerResolveLeadId_eq_core (cfg lead : Json) (rid v : String) (now : Nat)
    (rand : String) :
    writerResolveLeadId cfg (.obj [("requestId", .str rid), ("vendor", .str v), ("lead", lead)])
      now rand = writerResolveCore cfg (jsToLowerCase v) lead rid now rand := rfl

/-- Claim C2 (amended): the store-writer persistence path resolves the
configuration entry case-insensitively (it depends on the submitted
vendor name only through its lowercasing), while the
ingestion-response echo path is case-sensitive: its result depends on
the configuration only through the entry stored under the submitted
name verbatim. -/
theorem claim_C2_amended (cfg lead : Json) (rid v w : String) (now : Nat) (rand : String)
    (hvw : jsToLowerCase v = jsToLowerCase w) :
    (writerResolveLeadId cfg
        (.obj [("requestId", .str rid), ("vendor", .str v), ("lead", lead)]) now rand =
      writerResolveLeadId cfg
        (.obj [("requestId", .str rid), ("vendor", .str w), ("lead", lead)]) now rand) ∧
    (∀ (data cfg₂ : Json) (name : String),
      cfg.jLookup name = cfg₂.jLookup name →
      getVendorsLeadId data cfg name now rand = getVendorsLeadId data cfg₂ name now rand) := by
  constructor
  · rw [writerResolveLeadId_eq_core, writerResolveLeadId_eq_core, hvw]
  · intro data cfg₂ name hcfg
    simp only [getVendorsLeadId, hcfg]

/-- Witness for the amended claim C2 at concrete inputs. -/
theorem claim_C2_amended_witness :
    writerResolveLeadId c2Config
        (.obj [("requestId", .str "r1"), ("vendor", .str "LENDINGTREE"), ("lead", c2Lead)])
        0 "abcdef" =
      writerResolveLeadId c2Config
        (.obj [("requestId", .str "r1"), ("vendor", .str "lendingtree"), ("lead", c2Lead)])
        0 "abcdef" ∧
    getVendorsLeadId c2Lead c2Config "lendingtree" 0 "abcdef" =
      getVendorsLeadId c2Lead (.obj [("lendingtree", .obj [("leadIdProperty", .str "id")]),
        ("other", .obj [])]) "lendingtree" 0 "abcdef" := by
  have h := claim_C2_amended c2Config c2Lead "r1" "LENDINGTREE" "lendingtree" 0 "abcdef" (by rfl)
  exact ⟨h.1, h.2 c2Lead _ "lendingtree" (by rfl)⟩

/-- Claim C6: the lendingtree happy path — vendor `lendingtree`, JSON
body `\x7b"Internal_LeadID": "abc123"\x7d`, config mapping lendingtree to
`Internal_LeadID`, all dispatches succeeding — yields the bespoke
acknowledgement body with the echoed lead id. -/
theorem claim_C6_lendingtree_ack :
    (handler
      ⟨"POST", [("vendor", "lendingtree"), ("Content-Type", "application/json")], [],
        some "\x7b\"Internal_LeadID\": \"abc123\"\x7d"⟩ "req1" happyEnv).statusCode = 200 ∧
    (handler
      ⟨"POST", [("vendor", "lendingtree"), ("Content-Type", "application/json")], [],
        some "\x7b\"Internal_LeadID\": \"abc123\"\x7d"⟩ "req1" happyEnv).body =
      "\x7b\"leadAcknowledgement\":\x7b\"leadExternalId\":\"abc123\",\"partnerDecision\":\"accepted\",\"attemptRetransmit\":false\x7d\x7d" :=
  ⟨rfl, rfl⟩

/-- The failure condition of the vendors-config fetch, from the spec:
the client call throws, the response has no parameter or no (or an
empty, hence falsy) value, or the value is not valid JSON. -/
def ssmFetchFails (ssm : SsmOutcome) : Bool :=
  match ssm with
  | .throw _ => true
  | .ok none => true
  | .ok (some p) =>
    match p.value with
    | none => true
    | some v =>
      v = "" ||
        (match Json.parse v with
         | .ok _ => false
         | .error _ => true)

/-- Claim C8: every failure of the vendors-config load — a thrown
client error, a missing parameter, a parameter without a value, or a
malformed JSON value — yields the empty mapping; `getVendorsConfig`
is total (it cannot throw), so callers never see a config-store
outage. -/
theorem claim_C8_config_fail_open (ssm : SsmOutcome) (h : ssmFetchFails ssm = true) :
    getVendorsConfig ssm = .obj [] := by
  rcases ssm with e | (_ | ⟨_ | v⟩)
  · rfl
  · rfl
  · rfl
  · unfold ssmFetchFails at h
    unfold getVendorsConfig
    dsimp only at h ⊢
    by_cases hv : v = ""
    · subst hv
      rfl
    · rw [if_pos hv]
      rcases hp : Json.parse v with e2 | j
      · rfl
      · rw [hp] at h
        simp [hv] at h

/-- Witness for claim C8: a thrown client error and a malformed JSON
value both produce the empty mapping. -/
theorem claim_C8_witness :
    getVendorsConfig (.throw "AccessDeniedException") = .obj [] ∧
    getVendorsConfig (.ok (some ⟨some "not json"⟩)) = .obj [] :=
  ⟨claim_C8_config_fail_open _ (by rfl), claim_C8_config_fail_open _ (by rfl)⟩

/-- Claim C9: the iterative form-value decoder terminates on every
input (`decodeFormValue` is a total function), and its result is a
fixed point of the decode step (replacing `+` and percent-decoding
changes nothing) or, when the decode step fails on it, the last
successfully decoded value. -/
theorem claim_C9_decode_fixpoint (s : String) :
    ∃ r : String, decodeFormValue (some s) = some r ∧
      (decodeStep r.data = some r.data ∨ decodeStep r.data = none) :=
  ⟨String.mk (decodeLoopL s.data), rfl, decodeLoopL_spec s.data⟩

/-- Claim C10: a queue event with no `Records` field or an empty
`Records` array makes the store-writer handler return normally with no
vendors-config fetch and no store write. -/
theorem claim_C10_empty_event (outcome : Nat → DdbOutcome) (ssm : SsmOutcome)
    (now : Nat → Nat) (rand : Nat → String) (nowIso : String) :
    ddbHandler ⟨none⟩ outcome ssm now rand nowIso = ⟨0, .ok none⟩ ∧
    ddbHandler ⟨some []⟩ outcome ssm now rand nowIso = ⟨0, .ok none⟩ :=
  ⟨rfl, rfl⟩

/-- Claim C7: dotted lead-id paths are resolved by traversing the lead
per path segment (`\x7buser: \x7bid: "x9"\x7d\x7d` with `user.id` gives `"x9"`, also
through the full resolver); a missing, `null`, or non-object
intermediate makes the traversal yield `undefined` without throwing
(`getNestedProperty` is total and returns `none`), and whenever the
traversal yields `undefined` the resolver returns the generated
fallback identifier. -/
theorem claim_C7_dotted_path :
    getNestedProperty (.obj [("user", .obj [("id", .str "x9")])]) "user.id" = some (.str "x9") ∧
    getVendorsLeadId (.obj [("user", .obj [("id", .str "x9")])])
      (.obj [("v", .obj [("leadIdProperty", .str "user.id")])]) "v" 0 "r" = .ok (.str "x9") ∧
    getNestedProperty (.obj [("a", .str "b")]) "user.id" = none ∧
    getNestedProperty (.obj [("user", .null)]) "user.id" = none ∧
    getNestedProperty (.obj [("user", .str "flat")]) "user.id" = none ∧
    (∀ (data cfg : Json) (name p : String) (now : Nat) (rand : String),
      data.truthy = true →
      (cfg.jLookup name).bind (fun e => e.jLookup "leadIdProperty") = some (.str p) →
      jsIncludes p "." = true →
      getNestedProperty data p = none →
      getVendorsLeadId data cfg name now rand =
        .ok (.str (generateUniqueLeadId data now rand))) := by
  refine ⟨rfl, rfl, rfl, rfl, rfl, ?_⟩
  intro data cfg name p now rand hdata hcfg hdot hnone
  have hpne : p ≠ "" := by
    intro hep
    rw [hep] at hdot
    simp [jsIncludes, listHasSub] at hdot
  simp only [getVendorsLeadId, hdata, hcfg, hdot, hnone, Json.truthy, Json.otruthy, hpne]
  simp [hpne]

/-- Witness for claim C7's universal part: a lead without the `user`
intermediate resolves to the generated fallback `0_r`. -/
theorem claim_C7_witness :
    getVendorsLeadId (.obj [("a", .str "b")])
      (.obj [("v", .obj [("leadIdProperty", .str "user.id")])]) "v" 0 "r" = .ok (.str "0_r") := by
  have h := claim_C7_dotted_path
  exact h.2.2.2.2.2 (.obj [("a", .str "b")])
    (.obj [("v", .obj [("leadIdProperty", .str "user.id")])]) "v" "user.id" 0 "r"
    (by rfl) (by rfl) (by rfl) (by rfl)

/-- A 25-element list chunks into exactly the three slices
`[0,10)`, `[10,20)`, `[20,25)`. -/
theorem chunkList10_len25 {α : Type} (l : List α) (h : l.length = 25) :
    chunkList10 l = [l.take 10, (l.drop 10).take 10, l.drop 20] := by
  have h0 : l ≠ [] := by
    intro he
    rw [he] at h
    simp at h
  have h10 : l.drop 10 ≠ [] := by
    intro he
    have hc := congrArg List.length he
    simp [List.length_drop, h] at hc
  have h20 : (l.drop 10).drop 10 ≠ [] := by
    intro he
    have hc := congrArg List.length he
    simp [List.length_drop, h] at hc
  rw [chunkList10_ne_nil l h0, chunkList10_ne_nil _ h10, chunkList10_ne_nil _ h20]
  have hdd : (l.drop 10).drop 10 = l.drop 20 := by
    rw [List.drop_drop]
  have h30 : ((l.drop 10).drop 10).drop 10 = [] := by
    apply List.eq_nil_of_length_eq_zero
    simp [List.length_drop, h]
  have htk : ((l.drop 10).drop 10).take 10 = l.drop 20 := by
    rw [hdd]
    apply List.take_of_length_le
    simp [List.length_drop, h]
  rw [h30, htk]
  rfl

/-- `sendLeadsToSQS` issues one batch per chunk regardless of
transport outcomes (the per-chunk `try/catch` always continues). -/
theorem sqsGo_eq (outcome : Nat → SqsOutcome) (requestId vendor : String) :
    ∀ (chunks : List (List Json)) (ci : Nat),
      sqsGo outcome requestId vendor chunks ci =
        chunks.map (fun c => ⟨sqsChunkEntries requestId vendor c⟩) := by
  intro chunks
  induction chunks with
  | nil => intro ci; rfl
  | cons c rest ih =>
    intro ci
    cases ho : outcome ci <;> simp [sqsGo, ho, ih]

/-- When no chunk's `PutEvents` send throws, the event-bus loop issues
one single-entry call per chunk and returns them all. -/
theorem ebGo_ok (env : EbEnv) (outcome : Nat → EbOutcome) (vendor : String)
    (hok : ∀ i, ∃ n, outcome i = .resp n) :
    ∀ (chunks : List (List Json)) (ci : Nat),
      ebGo env outcome vendor chunks ci =
        .ok (chunks.map (fun c => ⟨[ebChunkEntry env vendor c]⟩)) := by
  intro chunks
  induction chunks with
  | nil => intro ci; rfl
  | cons c rest ih =>
    intro ci
    obtain ⟨n, hn⟩ := hok ci
    simp [ebGo, hn, ih, Except.map]

/-- Claim C3: a payload parsing to 25 leads produces exactly 3 queue
batches of 10, 10 and 5 entries in that order, and exactly 3
event-bus `PutEvents` calls, each with a single entry whose detail is
`\x7bvendor, leads: chunk\x7d` for the corresponding chunk — never one bus
event per lead. -/
theorem claim_C3_batching (body : String) (leads : List Json) (requestId vendor : String)
    (sqsOutcome : Nat → SqsOutcome) (ebEnv : EbEnv) (ebOutcome : Nat → EbOutcome)
    (hparse : Json.parse body = .ok (.arr leads))
    (hlen : leads.length = 25)
    (heb : ∀ i, ∃ n, ebOutcome i = .resp n) :
    (∃ batches, sendLeadsToSQS sqsOutcome requestId vendor body = .ok batches ∧
      batches.map (fun b => b.entries.length) = [10, 10, 5]) ∧
    (∃ calls, sendLeadsToEventBridge ebEnv ebOutcome vendor body = .ok calls ∧
      calls.length = 3 ∧
      (∀ c ∈ calls, c.entries.length = 1) ∧
      calls.map (fun c => c.entries.map (fun e => e.detail)) =
        [[Json.stringify (.obj [("vendor", .str vendor), ("leads", .arr (leads.take 10))])],
         [Json.stringify (.obj [("vendor", .str vendor), ("leads", .arr ((leads.drop 10).take 10))])],
         [Json.stringify (.obj [("vendor", .str vendor), ("leads", .arr (leads.drop 20))])]]) := by
  have hchunks := chunkList10_len25 leads hlen
  have hlen10 : (leads.take 10).length = 10 := by simp [List.length_take, hlen]
  have hlen1020 : ((leads.drop 10).take 10).length = 10 := by
    simp [List.length_take, List.length_drop, hlen]
  have hlen20 : (leads.drop 20).length = 5 := by simp [List.length_drop, hlen]
  constructor
  · have hs : sendLeadsToSQS sqsOutcome requestId vendor body =
        .ok ((chunkList10 leads).map (fun c => ⟨sqsChunkEntries requestId vendor c⟩)) := by
      simp only [sendLeadsToSQS, hparse, toLeadsArray]
      rw [sqsGo_eq]
    refine ⟨_, hs, ?_⟩
    rw [hchunks]
    simp [sqsChunkEntries, hlen10, hlen1020, hlen20]
  · have he : sendLeadsToEventBridge ebEnv ebOutcome vendor body =
        .ok [⟨[ebChunkEntry ebEnv vendor (leads.take 10)]⟩,
             ⟨[ebChunkEntry ebEnv vendor ((leads.drop 10).take 10)]⟩,
             ⟨[ebChunkEntry ebEnv vendor (leads.drop 20)]⟩] := by
      simp only [sendLeadsToEventBridge, hparse, toLeadsArray]
      rw [ebGo_ok ebEnv ebOutcome vendor heb, hchunks]
      rfl
    refine ⟨_, he, rfl, ?_, rfl⟩
    intro c hc
    simp at hc
    rcases hc with rfl | rfl | rfl <;> rfl

/-- A concrete 25-lead JSON array body. -/
def c3Body : String :=
  "[1,1,1,1,1,1,1,1,1,1,1,1,1,1,1,1,1,1,1,1,1,1,1,1,1]"

/-- Witness for claim C3 at a concrete 25-lead payload. -/
theorem claim_C3_witness :
    (sendLeadsToSQS (fun _ => SqsOutcome.resp []) "r" "acme" c3Body).toOption.map
        (fun bs => bs.map (fun b => b.entries.length)) = some [10, 10, 5] ∧
    (sendLeadsToEventBridge ⟨"bus", "src", "dt"⟩ (fun _ => EbOutcome.resp 0) "acme"
        c3Body).toOption.map (fun cs => cs.length) = some 3 := by
  have h := claim_C3_batching c3Body (List.replicate 25 (Json.num 1)) "r" "acme"
    (fun _ => .resp []) ⟨"bus", "src", "dt"⟩ (fun _ => .resp 0)
    (by rfl) (by rfl) (fun i => ⟨0, rfl⟩)
  obtain ⟨⟨bs, hbs, hbslen⟩, ⟨cs, hcs, hcslen, _, _⟩⟩ := h
  rw [hbs, hcs]
  simp only [Except.toOption, Option.map_eq_some']
  exact ⟨⟨bs, rfl, hbslen⟩, ⟨cs, rfl, hcslen⟩⟩

/-- An event-bus dispatch error is always a re-raised transport
exception thrown by one of the issued sends. -/
theorem ebGo_error (env : EbEnv) (outcome : Nat → EbOutcome) (vendor : String) :
    ∀ (chunks : List (List Json)) (ci : Nat) (e : String),
      ebGo env outcome vendor chunks ci = .error e → ∃ i, outcome i = .throw e := by
  intro chunks
  induction chunks with
  | nil =>
    intro ci e h
    cases h
  | cons c rest ih =>
    intro ci e h
    rw [ebGo] at h
    cases ho : outcome ci with
    | throw e' =>
      rw [ho] at h
      cases h
      exact ⟨ci, ho⟩
    | resp n =>
      rw [ho] at h
      rcases hrec : ebGo env outcome vendor rest (ci + 1) with e2 | calls
      · rw [hrec] at h
        cases h
        exact ih (ci + 1) e hrec
      · rw [hrec] at h
        cases h

/-- The environment of claim C4's 500-surfacing conjunct: the queue
send and the bus send both fail, the bus by throwing. -/
def env500 : HandlerEnv :=
  { ssm := .throw "ssm down",
    sqsOutcome := fun _ => .throw "sqs down",
    ebOutcome := fun _ => .throw "eb down",
    eb := ⟨"bus", "src", "dt"⟩,
    now := 0,
    rand := "r" }

/-- Claim C4: error propagation of the two fan-out paths is
asymmetric.  (a) The queue dispatch never throws for any transport
outcomes (on any payload that parses, which is the only kind the
handler hands it); (b) per-entry failures reported by either transport
are only logged (both dispatches return normally under non-throwing
outcomes); (c) an event-bus dispatch error is always a re-raised
transport exception of one of its sends, (d) which the first chunk's
send throwing indeed produces; and (e) such a throw surfaces as a 500
response from the handler — even while the queue send is also failing
and being swallowed. -/
theorem claim_C4_asymmetric_errors :
    (∀ (outcome : Nat → SqsOutcome) (requestId vendor body : String) (parsed : Json),
      Json.parse body = .ok parsed →
      ∃ batches, sendLeadsToSQS outcome requestId vendor body = .ok batches) ∧
    (∀ (env : EbEnv) (outcome : Nat → EbOutcome) (vendor body : String) (parsed : Json),
      Json.parse body = .ok parsed →
      (∀ i, ∃ n, outcome i = .resp n) →
      ∃ calls, sendLeadsToEventBridge env outcome vendor body = .ok calls) ∧
    (∀ (env : EbEnv) (outcome : Nat → EbOutcome) (vendor body e : String),
      sendLeadsToEventBridge env outcome vendor body = .error e →
      Json.parse body = .error e ∨ ∃ i, outcome i = .throw e) ∧
    (∀ (env : EbEnv) (outcome : Nat → EbOutcome) (vendor body e : String) (leads : List Json),
      Json.parse body = .ok (.arr leads) → leads ≠ [] → outcome 0 = .throw e →
      sendLeadsToEventBridge env outcome vendor body = .error e) ∧
    ((handler ⟨"POST", [("vendor", "acme")], [], some "[1]"⟩ "req1" env500).statusCode = 500 ∧
      (handler ⟨"POST", [("vendor", "acme")], [], some "[1]"⟩ "req1" env500).body =
        "\x7b\"status\":\"error\",\"message\":\"eb down\"\x7d") := by
  refine ⟨?_, ?_, ?_, ?_, rfl, rfl⟩
  · intro outcome requestId vendor body parsed hparse
    refine ⟨sqsGo outcome requestId vendor (chunkList10 (toLeadsArray parsed)) 0, ?_⟩
    simp only [sendLeadsToSQS, hparse]
  · intro env outcome vendor body parsed hparse hok
    refine ⟨(chunkList10 (toLeadsArray parsed)).map
      (fun c => ⟨[ebChunkEntry env vendor c]⟩), ?_⟩
    simp only [sendLeadsToEventBridge, hparse]
    rw [ebGo_ok env outcome vendor hok]
  · intro env outcome vendor body e h
    unfold sendLeadsToEventBridge at h
    rcases hp : Json.parse body with e2 | parsed
    · rw [hp] at h
      cases h
      exact Or.inl rfl
    · rw [hp] at h
      exact Or.inr (ebGo_error env outcome vendor _ 0 e h)
  · intro env outcome vendor body e leads hparse hne h0
    simp only [sendLeadsToEventBridge, hparse, toLeadsArray]
    rw [chunkList10_ne_nil leads hne]
    rw [ebGo, h0]

/-- Witness for claim C4 at concrete inputs: the queue dispatch
returns normally while its transport throws; the bus dispatch
re-raises the first chunk's throw; the raised error is one thrown by a
send. -/
theorem claim_C4_witness :
    (∃ batches, sendLeadsToSQS (fun _ : Nat => SqsOutcome.throw "sqs down") "r" "acme" "[1]" =
      .ok batches) ∧
    sendLeadsToEventBridge ⟨"bus", "src", "dt"⟩ (fun _ : Nat => EbOutcome.throw "boom") "acme"
      "[1]" = .error "boom" ∧
    (∃ i : Nat, (fun _ : Nat => EbOutcome.throw "boom") i = EbOutcome.throw "boom") ∧
    (handler ⟨"POST", [("vendor", "acme")], [], some "[1]"⟩ "req1" env500).statusCode = 500 := by
  have h := claim_C4_asymmetric_errors
  have heb := h.2.2.2.1 ⟨"bus", "src", "dt"⟩ (fun _ : Nat => EbOutcome.throw "boom") "acme" "[1]"
    "boom" [.num 1] (by rfl) (by simp) rfl
  refine ⟨h.1 (fun _ : Nat => SqsOutcome.throw "sqs down") "r" "acme" "[1]" (.arr [.num 1])
    (by rfl), heb, ?_, h.2.2.2.2.1⟩
  rcases h.2.2.1 ⟨"bus", "src", "dt"⟩ (fun _ : Nat => EbOutcome.throw "boom") "acme" "[1]" "boom"
    heb with hl | hr
  · cases hl
  · simpa using hr

/-- Unfolding of `saveLoop` for a `resp` outcome. -/
theorem saveLoop_resp (outcome : Nat → DdbOutcome) (items : Option (List DdbItem))
    (rc idx : Nat) (h : items.isSome ∧ rc < 3) (u : Option (List DdbItem))
    (ho : outcome idx = .resp u) :
    saveLoop outcome items rc idx =
      (saveLoop outcome u (if u.isSome then rc + 1 else rc) (idx + 1)).map
        (fun t => ⟨⟨(if 0 < rc then min (100 * 2 ^ rc) 2000 else 0), items⟩ :: t.attempts,
          t.residual⟩) := by
  conv_lhs => rw [saveLoop]
  rw [dif_pos h, ho]

/-- Unfolding of `saveLoop` for a fatal `throw` outcome. -/
theorem saveLoop_throw_fatal (outcome : Nat → DdbOutcome) (items : Option (List DdbItem))
    (rc idx : Nat) (h : items.isSome ∧ rc < 3) (e : String)
    (ho : outcome idx = .throw e) (h3 : rc + 1 ≥ 3) :
    saveLoop outcome items rc idx = .error e := by
  conv_lhs => rw [saveLoop]
  rw [dif_pos h, ho]
  dsimp only
  rw [if_pos h3]

/-- Unfolding of `saveLoop` for a retried `throw` outcome. -/
theorem saveLoop_throw_retry (outcome : Nat → DdbOutcome) (items : Option (List DdbItem))
    (rc idx : Nat) (h : items.isSome ∧ rc < 3) (e : String)
    (ho : outcome idx = .throw e) (h3 : ¬rc + 1 ≥ 3) :
    saveLoop outcome items rc idx =
      (saveLoop outcome items (rc + 1) (idx + 1)).map
        (fun t => ⟨⟨(if 0 < rc then min (100 * 2 ^ rc) 2000 else 0), items⟩ :: t.attempts,
          t.residual⟩) := by
  conv_lhs => rw [saveLoop]
  rw [dif_pos h, ho]
  dsimp only
  rw [if_neg h3]

/-- Unfolding of `saveLoop` when the loop condition fails. -/
theorem saveLoop_stop (outcome : Nat → DdbOutcome) (items : Option (List DdbItem))
    (rc idx : Nat) (h : ¬(items.isSome ∧ rc < 3)) :
    saveLoop outcome items rc idx = .ok ⟨[], items⟩ := by
  conv_lhs => rw [saveLoop]
  rw [dif_neg h]

/-- Characterization of a non-throwing run of the retry loop: at most
`3 - retryCount` further attempts; every attempt `i` waits the backoff
computed from retry count `retryCount + i` (zero before the first
try); the first attempt carries the current request items; and an
attempt that follows a response reporting unprocessed items carries
exactly that unprocessed subset. -/
theorem saveLoop_ok_spec (outcome : Nat → DdbOutcome) :
    ∀ (items : Option (List DdbItem)) (rc idx : Nat) (t : SaveTrace),
      saveLoop outcome items rc idx = .ok t →
      (t.attempts.length ≤ cond items.isSome (3 - rc) 0) ∧
      (∀ (i : Nat) (hi : i < t.attempts.length),
        (t.attempts.get ⟨i, hi⟩).delayMs =
          if rc + i = 0 then 0 else min (100 * 2 ^ (rc + i)) 2000) ∧
      (∀ (h0 : 0 < t.attempts.length), (t.attempts.get ⟨0, h0⟩).request = items) ∧
      (∀ (i : Nat) (hi : i + 1 < t.attempts.length) (u : List DdbItem),
        outcome (idx + i) = .resp (some u) →
        (t.attempts.get ⟨i + 1, hi⟩).request = some u) := by
  intro items rc idx
  induction items, rc, idx using saveLoop.induct outcome with
  | case1 items rc idx h u ho ih =>
    intro t ht
    rw [saveLoop_resp outcome items rc idx h u ho] at ht
    rcases hrec : saveLoop outcome u (if u.isSome then rc + 1 else rc) (idx + 1) with e | t'
    · rw [hrec] at ht
      cases ht
    · rw [hrec] at ht
      cases ht
      obtain ⟨ihlen, ihdelay, ihhead, ihchain⟩ := ih t' hrec
      refine ⟨?_, ?_, ?_, ?_⟩
      · simp only [List.length_cons, h.1, cond_true]
        have hrc3 := h.2
        cases hu : u.isSome
        · rw [hu] at ihlen
          simp at ihlen
          simp [ihlen]
          omega
        · rw [hu] at ihlen
          simp at ihlen
          omega
      · intro i hi
        cases i with
        | zero =>
          simp only [List.get_cons_zero]
          by_cases hrc : rc = 0 <;> simp [hrc]
        | succ i =>
          simp only [List.get_cons_succ]
          rw [ihdelay i (by simpa using hi)]
          cases hu : u.isSome
          · simp only [hu] at hrec
            rw [if_neg (by simp)] at hrec
            rw [saveLoop_stop outcome u rc (idx + 1) (by simp [hu])] at hrec
            cases hrec
            simp at hi
          · simp only [hu, dite_true]
            have harith : rc + 1 + i = rc + (i + 1) := by omega
            rw [harith]
      · intro h0
        rfl
      · intro i hi u' ho'
        cases i with
        | zero =>
          rw [Nat.add_zero] at ho'
          rw [ho] at ho'
          cases ho'
          simp only [List.get_cons_succ]
          exact ihhead (by simpa using hi)
        | succ i =>
          simp only [List.get_cons_succ]
          have harith : idx + (i + 1) = (idx + 1) + i := by omega
          rw [harith] at ho'
          exact ihchain i (by simpa using hi) u' ho'
  | case2 items rc idx h e ho h3 =>
    intro t ht
    rw [saveLoop_throw_fatal outcome items rc idx h e ho h3] at ht
    cases ht
  | case3 items rc idx h e ho h3 ih =>
    intro t ht
    rw [saveLoop_throw_retry outcome items rc idx h e ho h3] at ht
    rcases hrec : saveLoop outcome items (rc + 1) (idx + 1) with e2 | t'
    · rw [hrec] at ht
      cases ht
    · rw [hrec] at ht
      cases ht
      obtain ⟨ihlen, ihdelay, ihhead, ihchain⟩ := ih t' hrec
      refine ⟨?_, ?_, ?_, ?_⟩
      · simp only [List.length_cons, h.1, cond_true]
        rw [h.1, cond_true] at ihlen
        have := h.2
        omega
      · intro i hi
        cases i with
        | zero =>
          simp only [List.get_cons_zero]
          by_cases hrc : rc = 0 <;> simp [hrc]
        | succ i =>
          simp only [List.get_cons_succ]
          rw [ihdelay i (by simpa using hi)]
          have harith : rc + 1 + i = rc + (i + 1) := by omega
          rw [harith]
      · intro h0
        rfl
      · intro i hi u' ho'
        cases i with
        | zero =>
          rw [Nat.add_zero] at ho'
          rw [ho] at ho'
          cases ho'
        | succ i =>
          simp only [List.get_cons_succ]
          have harith : idx + (i + 1) = (idx + 1) + i := by omega
          rw [harith] at ho'
          exact ihchain i (by simpa using hi) u' ho'
  | case4 items rc idx h =>
    intro t ht
    rw [saveLoop_stop outcome items rc idx h] at ht
    cases ht
    refine ⟨by simp, ?_, ?_, ?_⟩
    · intro i hi
      simp at hi
    · intro h0
      simp at h0
    · intro i hi
      simp at hi

/-- When no send throws, the retry loop returns normally — residual
unprocessed items are only logged, never raised. -/
theorem saveLoop_ok_of_resp (outcome : Nat → DdbOutcome)
    (hok : ∀ i, ∃ u, outcome i = .resp u) :
    ∀ (items : Option (List DdbItem)) (rc idx : Nat),
      ∃ t, saveLoop outcome items rc idx = .ok t := by
  intro items rc idx
  induction items, rc, idx using saveLoop.induct outcome with
  | case1 items rc idx h u ho ih =>
    obtain ⟨t', ht'⟩ := ih
    have ht'' : saveLoop outcome u (if u.isSome then rc + 1 else rc) (idx + 1) = .ok t' := ht'
    refine ⟨⟨⟨(if 0 < rc then min (100 * 2 ^ rc) 2000 else 0), items⟩ :: t'.attempts,
      t'.residual⟩, ?_⟩
    rw [saveLoop_resp outcome items rc idx h u ho, ht'']
    rfl
  | case2 items rc idx h e ho h3 =>
    obtain ⟨u, hu⟩ := hok idx
    rw [ho] at hu
    cases hu
  | case3 items rc idx h e ho h3 ih =>
    obtain ⟨u, hu⟩ := hok idx
    rw [ho] at hu
    cases hu
  | case4 items rc idx h =>
    exact ⟨⟨[], items⟩, saveLoop_stop outcome items rc idx h⟩

/-- An error escaping the retry loop is the transport error thrown by
the attempt at retry count 2 (the third and final attempt). -/
theorem saveLoop_error_spec (outcome : Nat → DdbOutcome) :
    ∀ (items : Option (List DdbItem)) (rc idx : Nat) (e : String),
      saveLoop outcome items rc idx = .error e →
      rc ≤ 2 ∧ outcome (idx + (2 - rc)) = .throw e := by
  intro items rc idx
  induction items, rc, idx using saveLoop.induct outcome with
  | case1 items rc idx h u ho ih =>
    intro e ht
    rw [saveLoop_resp outcome items rc idx h u ho] at ht
    rcases hrec : saveLoop outcome u (if u.isSome then rc + 1 else rc) (idx + 1) with e2 | t'
    · rw [hrec] at ht
      have hrec' : saveLoop outcome u
          (if h : u.isSome = true then rc + 1 else rc) (idx + 1) = .error e2 := hrec
      obtain ⟨hrc', hout⟩ := ih e2 hrec'
      cases ht
      cases hu : u.isSome
      · rcases u with _ | l
        · rw [saveLoop_stop outcome none (if none.isSome then rc + 1 else rc) (idx + 1)
            (by simp)] at hrec
          cases hrec
        · simp at hu
      · rw [hu] at hrc' hout
        simp only [dite_true] at hrc' hout
        have harith : (idx + 1) + (2 - (rc + 1)) = idx + (2 - rc) := by omega
        rw [harith] at hout
        exact ⟨by omega, hout⟩
    · rw [hrec] at ht
      cases ht
  | case2 items rc idx h e ho h3 =>
    intro e' ht
    rw [saveLoop_throw_fatal outcome items rc idx h e ho h3] at ht
    cases ht
    have hrc : rc = 2 := by omega
    subst hrc
    simpa using ho
  | case3 items rc idx h e ho h3 ih =>
    intro e' ht
    rw [saveLoop_throw_retry outcome items rc idx h e ho h3] at ht
    rcases hrec : saveLoop outcome items (rc + 1) (idx + 1) with e2 | t'
    · rw [hrec] at ht
      obtain ⟨hrc', hout⟩ := ih e2 hrec
      cases ht
      have harith : (idx + 1) + (2 - (rc + 1)) = idx + (2 - rc) := by omega
      rw [harith] at hout
      exact ⟨by omega, hout⟩
    · rw [hrec] at ht
      cases ht
  | case4 items rc idx h =>
    intro e ht
    rw [saveLoop_stop outcome items rc idx h] at ht
    cases ht

/-- Claim C5: the store batch-put retry loop (i) makes at most 3
attempts in total; (ii) waits `min(100·2^retryCount, 2000)` ms before
each retry (nothing before the first attempt, and the retry count
grows by one per attempt); (iii) the first attempt carries the built
put requests and every attempt following a partial-failure response
retries exactly the reported unprocessed subset; (iv) when no attempt
throws, the writer returns normally even if items remain unprocessed
(silent-drop policy — the residue is only logged); and (v) an error
propagating out is a transport error thrown by the final attempt (at
retry count 2) — or, in this embedding, a `TypeError` from building
the put requests on a malformed config entry. -/
theorem claim_C5_retry_loop (outcome : Nat → DdbOutcome) (ssm : SsmOutcome)
    (messages : List Json) (now : Nat → Nat) (rand : Nat → String) (nowIso : String) :
    (∀ t, saveToDynamoDB outcome ssm messages now rand nowIso = .ok t →
      t.attempts.length ≤ 3 ∧
      (∀ (i : Nat) (hi : i < t.attempts.length),
        (t.attempts.get ⟨i, hi⟩).delayMs = if i = 0 then 0 else min (100 * 2 ^ i) 2000) ∧
      (∀ (h0 : 0 < t.attempts.length),
        ∃ reqs, writerPutRequests (getVendorsConfig ssm) messages now rand nowIso = .ok reqs ∧
          (t.attempts.get ⟨0, h0⟩).request = some reqs) ∧
      (∀ (i : Nat) (hi : i + 1 < t.attempts.length) (u : List DdbItem),
        outcome i = .resp (some u) → (t.attempts.get ⟨i + 1, hi⟩).request = some u)) ∧
    ((∀ i, ∃ u, outcome i = .resp u) →
      (writerPutRequests (getVendorsConfig ssm) messages now rand nowIso).isOk = true →
      ∃ t, saveToDynamoDB outcome ssm messages now rand nowIso = .ok t) ∧
    (∀ e, saveToDynamoDB outcome ssm messages now rand nowIso = .error e →
      writerPutRequests (getVendorsConfig ssm) messages now rand nowIso = .error e ∨
        outcome 2 = .throw e) := by
  refine ⟨?_, ?_, ?_⟩
  · intro t ht
    unfold saveToDynamoDB at ht
    dsimp only at ht
    rcases hw : writerPutRequests (getVendorsConfig ssm) messages now rand nowIso with e | reqs
    · rw [hw] at ht
      cases ht
    · rw [hw] at ht
      obtain ⟨hlen, hdelay, hhead, hchain⟩ := saveLoop_ok_spec outcome (some reqs) 0 0 t ht
      refine ⟨by simpa using hlen, ?_, ?_, ?_⟩
      · intro i hi
        have := hdelay i hi
        simpa using this
      · intro h0
        exact ⟨reqs, rfl, hhead h0⟩
      · intro i hi u hu
        exact hchain i hi u (by simpa using hu)
  · intro hok hreqs
    unfold saveToDynamoDB
    dsimp only
    rcases hw : writerPutRequests (getVendorsConfig ssm) messages now rand nowIso with e | reqs
    · rw [hw] at hreqs
      cases hreqs
    · exact saveLoop_ok_of_resp outcome hok (some reqs) 0 0
  · intro e ht
    unfold saveToDynamoDB at ht
    dsimp only at ht
    rcases hw : writerPutRequests (getVendorsConfig ssm) messages now rand nowIso with e2 | reqs
    · rw [hw] at ht
      cases ht
      exact Or.inl rfl
    · rw [hw] at ht
      obtain ⟨-, hout⟩ := saveLoop_error_spec outcome (some reqs) 0 0 e ht
      exact Or.inr (by simpa using hout)

/-- A put request item for claim C5's witness trace. -/
def c5Item : DdbItem := ⟨"Lead#l", "Vendor#v", "v", "t0", .null⟩

/-- Claim C5's witness transport schedule: a partial failure, then a
thrown send, then a clean response. -/
def c5Oracle : Nat → DdbOutcome
  | 0 => .resp (some [c5Item])
  | 1 => .throw "transport"
  | _ => .resp none

/-- Witness for claim C5: on a concrete schedule the loop makes 3
attempts with backoffs 0, 200, 400 ms, retries exactly the reported
unprocessed subset, and returns normally; on an always-throwing
schedule the third attempt's error propagates. -/
theorem claim_C5_witness :
    (∃ t, saveToDynamoDB c5Oracle (.throw "down") [] (fun _ => 0) (fun _ => "r") "t0" = .ok t ∧
      t.attempts.length ≤ 3 ∧
      t.attempts.map (fun a => a.delayMs) = [0, 200, 400] ∧
      t.attempts.map (fun a => a.request) = [some [], some [c5Item], some [c5Item]]) ∧
    (saveToDynamoDB (fun _ => DdbOutcome.throw "boom") (.throw "down") []
        (fun _ => 0) (fun _ => "r") "t0" = .error "boom" ∧
      (fun _ : Nat => DdbOutcome.throw "boom") 2 = DdbOutcome.throw "boom") := by
  have heval : saveToDynamoDB c5Oracle (.throw "down") [] (fun _ => 0) (fun _ => "r") "t0" =
      .ok ⟨[⟨0, some []⟩, ⟨200, some [c5Item]⟩, ⟨400, some [c5Item]⟩], none⟩ := by
    unfold saveToDynamoDB writerPutRequests
    simp [saveLoop, c5Oracle, Except.map]
    rfl
  have herr : saveToDynamoDB (fun _ => DdbOutcome.throw "boom") (.throw "down") []
      (fun _ => 0) (fun _ => "r") "t0" = .error "boom" := by
    unfold saveToDynamoDB writerPutRequests
    simp [saveLoop, Except.map]
    rfl
  have h := claim_C5_retry_loop c5Oracle (.throw "down") [] (fun _ => 0) (fun _ => "r") "t0"
  obtain ⟨hlen, -, -, -⟩ := h.1 _ heval
  have h2 := (claim_C5_retry_loop (fun _ => DdbOutcome.throw "boom") (.throw "down") []
    (fun _ => 0) (fun _ => "r") "t0").2.2 "boom" herr
  refine ⟨⟨_, heval, hlen, rfl, rfl⟩, herr, ?_⟩
  rcases h2 with hl | hr
  · cases hl
  · exact hr
